import Mathlib

/-!
Shallow embedding of the EduQuest backend's scoring, points-ledger, badge and
cognitive-profile logic (src/app/api/models.py and src/app/api/tasks.py),
together with theorems settling the frozen claims about it.

Conventions: Python floats are modelled as exact rationals (ℚ); Django
querysets over an attempt's rows are modelled as Lean lists in encounter
order; timestamps are integers in milliseconds.
-/

/-- Mirrors `Answer` (models.py): an answer option of a question, carrying the
question-level ground-truth flag `is_correct`. -/
structure Answer where
  is_correct : Bool
deriving DecidableEq, Repr

/-- Mirrors `Question` (models.py): `max_score`, its list of `Answer` options,
and the optional `topic` tag (nullable CharField, hence `Option String`). -/
structure Question where
  max_score : ℚ
  answers : List Answer
  topic : Option String
deriving DecidableEq, Repr

/-- Mirrors `UserAnswerAttempt` (models.py): the fields read and written by
`calculate_total_score_achieved`.  `answer_is_correct` embeds the referenced
answer's global flag `ua.answer.is_correct`. -/
structure UserAnswerAttempt where
  is_selected : Bool
  answer_is_correct : Bool
  hint_used : Bool
  score_achieved : ℚ
deriving DecidableEq, Repr

/-- One question of the quest together with this attempt's answer attempts on
it, i.e. the pair (`question`, `self.answer_attempts.filter(question=question)`)
iterated by the scoring loop. -/
structure QuestionAttempt where
  question : Question
  attempts : List UserAnswerAttempt
deriving DecidableEq, Repr

/-- Phase 1 of the scoring loop (models.py lines 294-302): the score written to
one answer attempt — `weight_per_option` if `ua.is_selected and
ua.answer.is_correct`, else `0`. -/
def scoreAnswerAttempt (w : ℚ) (ua : UserAnswerAttempt) : UserAnswerAttempt :=
  { ua with score_achieved := if ua.is_selected && ua.answer_is_correct then w else 0 }

/-- `weight_per_option = question.max_score / (num_correct or 1)`
(models.py line 290); Python `or` turns a zero count into 1. -/
def questionWeight (q : Question) : ℚ :=
  let num_correct := (q.answers.filter (·.is_correct)).length
  q.max_score / (if num_correct = 0 then 1 else (num_correct : ℚ))

/-- The answer-attempt list after phase 1 of the scoring loop. -/
def scoredAttempts (q : Question) (uas : List UserAnswerAttempt) : List UserAnswerAttempt :=
  uas.map (scoreAnswerAttempt (questionWeight q))

/-- The hint-penalty loop (models.py lines 306-311): walk the answer attempts
in encounter order, deducting `min(ua.score_achieved, remaining_penalty)` from
each attempt with a positive score while penalty budget remains.  Returns the
updated list and the unspent budget. -/
def applyPenalty : ℚ → List UserAnswerAttempt → List UserAnswerAttempt × ℚ
  | rem, [] => ([], rem)
  | rem, ua :: rest =>
    if ua.score_achieved > 0 ∧ rem > 0 then
      let d := min ua.score_achieved rem
      let p := applyPenalty (rem - d) rest
      ({ ua with score_achieved := ua.score_achieved - d } :: p.1, p.2)
    else
      let p := applyPenalty rem rest
      (ua :: p.1, p.2)

/-- One iteration of the per-question loop of
`UserQuestAttempt.calculate_total_score_achieved` (models.py lines 282-314):
skip questions with no answer options (`continue`), otherwise score each
answer attempt, apply the flat 5-point hint penalty when any attempt used a
hint, and clamp the question subtotal at 0.  Returns the updated answer
attempts and the question's contribution to the total. -/
def scoreQuestion (q : Question) (uas : List UserAnswerAttempt) :
    List UserAnswerAttempt × ℚ :=
  if q.answers.length = 0 then (uas, 0)
  else
    let scored := scoredAttempts q uas
    let question_score := (scored.map (·.score_achieved)).sum
    if scored.any (·.hint_used) then
      ((applyPenalty 5 scored).1, max 0 (question_score - 5))
    else
      (scored, question_score)

/-- `UserQuestAttempt.calculate_total_score_achieved` (models.py lines
273-319): per-question scoring over the whole quest; returns the updated
answer attempts of every question and the attempt's total score. -/
def calculate_total_score_achieved (qs : List QuestionAttempt) :
    List QuestionAttempt × ℚ :=
  (qs.map fun qa => { qa with attempts := (scoreQuestion qa.question qa.attempts).1 },
   (qs.map fun qa => (scoreQuestion qa.question qa.attempts).2).sum)

/-- The scoring algorithm exactly as the spec's words describe it (spec §4.1 /
claim C1): `weightPerOption = question.maxScore / max(numCorrectOptions, 1)`,
award `weightPerOption` iff `isSelected && answer.isCorrect`, flat 5-point
hint penalty distributed over the individual scores with the subtotal clamped
at 0 — with no skip of questions that have no answer options. -/
def specScoreQuestion (q : Question) (uas : List UserAnswerAttempt) :
    List UserAnswerAttempt × ℚ :=
  let numCorrectOptions := (q.answers.filter (·.is_correct)).length
  let weightPerOption := q.max_score / (max numCorrectOptions 1 : ℚ)
  let scored := uas.map (scoreAnswerAttempt weightPerOption)
  let subtotal := (scored.map (·.score_achieved)).sum
  if scored.any (·.hint_used) then
    ((applyPenalty 5 scored).1, max 0 (subtotal - 5))
  else
    (scored, subtotal)

/-- Whole-attempt version of `specScoreQuestion`: the spec-side total is the
sum of all question subtotals, with per-answer score write-backs. -/
def specCalculateTotal (qs : List QuestionAttempt) : List QuestionAttempt × ℚ :=
  (qs.map fun qa => { qa with attempts := (specScoreQuestion qa.question qa.attempts).1 },
   (qs.map fun qa => (specScoreQuestion qa.question qa.attempts).2).sum)

/-- The fields of an answer attempt that the Score Calculator reads (it never
reads the incoming `score_achieved`). -/
def uaFlags (ua : UserAnswerAttempt) : Bool × Bool × Bool :=
  (ua.is_selected, ua.answer_is_correct, ua.hint_used)

example :
    calculate_total_score_achieved
      [⟨⟨10, [⟨true⟩, ⟨false⟩], none⟩,
        [⟨true, true, false, 0⟩, ⟨false, false, false, 0⟩]⟩]
      = ([⟨⟨10, [⟨true⟩, ⟨false⟩], none⟩,
          [⟨true, true, false, 10⟩, ⟨false, false, false, 0⟩]⟩], 10) := by
  simp [calculate_total_score_achieved, scoreQuestion, scoredAttempts,
    scoreAnswerAttempt, questionWeight, applyPenalty]

example :
    (calculate_total_score_achieved
      [⟨⟨10, [⟨true⟩, ⟨false⟩], none⟩,
        [⟨true, true, true, 0⟩, ⟨false, false, false, 0⟩]⟩]).2 = 5 := by
  simp [calculate_total_score_achieved, scoreQuestion, scoredAttempts,
    scoreAnswerAttempt, questionWeight, applyPenalty]
  norm_num

lemma uaFlags_scoreAnswerAttempt (w : ℚ) (ua : UserAnswerAttempt) :
    uaFlags (scoreAnswerAttempt w ua) = uaFlags ua := rfl

lemma applyPenalty_flags (l : List UserAnswerAttempt) :
    ∀ rem : ℚ, ((applyPenalty rem l).1).map uaFlags = l.map uaFlags := by
  induction l with
  | nil => intro rem; simp [applyPenalty]
  | cons ua rest ih =>
    intro rem
    by_cases h : ua.score_achieved > 0 ∧ rem > 0
    · simp [applyPenalty, h, uaFlags, ih]
    · simp [applyPenalty, h, ih]

lemma scoreAnswerAttempt_congr (w : ℚ) (ua₁ ua₂ : UserAnswerAttempt)
    (h : uaFlags ua₁ = uaFlags ua₂) :
    scoreAnswerAttempt w ua₁ = scoreAnswerAttempt w ua₂ := by
  cases ua₁; cases ua₂
  simp only [uaFlags, Prod.mk.injEq] at h
  simp [scoreAnswerAttempt, h.1, h.2.1, h.2.2]

lemma map_scoreAnswerAttempt_congr (w : ℚ) :
    ∀ l₁ l₂ : List UserAnswerAttempt, l₁.map uaFlags = l₂.map uaFlags →
      l₁.map (scoreAnswerAttempt w) = l₂.map (scoreAnswerAttempt w) := by
  intro l₁
  induction l₁ with
  | nil => intro l₂ h; cases l₂ <;> simp_all
  | cons a t ih =>
    intro l₂ h
    cases l₂ with
    | nil => simp at h
    | cons b t₂ =>
      simp only [List.map_cons, List.cons.injEq] at h ⊢
      exact ⟨scoreAnswerAttempt_congr w a b h.1, ih t₂ h.2⟩

lemma scoredAttempts_flags (q : Question) (uas : List UserAnswerAttempt) :
    (scoredAttempts q uas).map uaFlags = uas.map uaFlags := by
  simp only [scoredAttempts, List.map_map]
  apply List.map_congr_left
  intro a _
  rfl

lemma scoreQuestion_flags (q : Question) (uas : List UserAnswerAttempt) :
    ((scoreQuestion q uas).1).map uaFlags = uas.map uaFlags := by
  unfold scoreQuestion
  by_cases he : q.answers.length = 0
  · simp [he]
  · simp only [he, if_false]
    by_cases hh : (scoredAttempts q uas).any (·.hint_used)
    · simp [hh, applyPenalty_flags, scoredAttempts_flags]
    · simp [hh, scoredAttempts_flags]

lemma scoreQuestion_congr (q : Question) (uas₁ uas₂ : List UserAnswerAttempt)
    (hne : q.answers.length ≠ 0) (h : uas₁.map uaFlags = uas₂.map uaFlags) :
    scoreQuestion q uas₁ = scoreQuestion q uas₂ := by
  unfold scoreQuestion
  have hs : scoredAttempts q uas₁ = scoredAttempts q uas₂ :=
    map_scoreAnswerAttempt_congr _ _ _ h
  simp [hne, hs]

lemma scoreQuestion_idem (q : Question) (uas : List UserAnswerAttempt) :
    scoreQuestion q ((scoreQuestion q uas).1) = scoreQuestion q uas := by
  by_cases he : q.answers.length = 0
  · have h1 : (scoreQuestion q uas).1 = uas := by unfold scoreQuestion; simp [he]
    rw [h1]
  · exact scoreQuestion_congr q _ _ he (scoreQuestion_flags q uas)

/-- C2: the Score Calculator is idempotent: running
`calculate_total_score_achieved` a second time on the state produced by the
first run returns the same total and writes the same `score_achieved` to every
answer attempt — the previously written scores do not influence the second
run, because the calculator never reads the incoming `score_achieved`. -/
theorem score_calculator_idempotent (qs : List QuestionAttempt) :
    calculate_total_score_achieved ((calculate_total_score_achieved qs).1)
      = calculate_total_score_achieved qs := by
  unfold calculate_total_score_achieved
  simp only [List.map_map, Prod.mk.injEq]
  constructor
  · apply List.map_congr_left
    intro qa _
    simp [Function.comp, scoreQuestion_idem]
  · apply congrArg
    apply List.map_congr_left
    intro qa _
    simp [Function.comp, scoreQuestion_idem]

lemma questionWeight_eq_spec (q : Question) :
    questionWeight q
      = q.max_score / (max ((q.answers.filter (·.is_correct)).length : ℚ) 1) := by
  simp only [questionWeight]
  rcases h : (q.answers.filter (·.is_correct)).length with _ | n
  · rw [h]
    norm_num
  · rw [h]
    have h1 : (1 : ℚ) ≤ ((n + 1 : ℕ) : ℚ) := by exact_mod_cast Nat.succ_le_succ (Nat.zero_le n)
    rw [if_neg (Nat.succ_ne_zero n), max_eq_left h1]

lemma scoreQuestion_eq_spec (q : Question) (uas : List UserAnswerAttempt)
    (h : q.answers = [] → uas = []) :
    scoreQuestion q uas = specScoreQuestion q uas := by
  by_cases he : q.answers.length = 0
  · have hnil : q.answers = [] := List.length_eq_zero.mp he
    have huas : uas = [] := h hnil
    subst huas
    unfold scoreQuestion specScoreQuestion
    simp [he]
  · unfold scoreQuestion specScoreQuestion
    have hw : questionWeight q
        = q.max_score / (max ((q.answers.filter (·.is_correct)).length : ℚ) 1) :=
      questionWeight_eq_spec q
    simp only [he, if_false, scoredAttempts]
    rw [hw]

/-- C1: for a submitted attempt, the Score Calculator computes exactly what
the spec says: per question, `weightPerOption = maxScore / max(numCorrect, 1)`,
each answer attempt is awarded `weightPerOption` iff it is selected and its
answer is globally correct, a flat 5-point hint penalty is distributed over
the individual scores (never below 0) with the question subtotal clamped at 0,
and the total is the sum of the question subtotals.  The hypothesis states
that a question with no answer options has no answer attempts (any answer
attempt references an answer option of its question). -/
theorem score_calculator_matches_claim (qs : List QuestionAttempt)
    (hWf : ∀ qa ∈ qs, qa.question.answers = [] → qa.attempts = []) :
    calculate_total_score_achieved qs = specCalculateTotal qs := by
  unfold calculate_total_score_achieved specCalculateTotal
  simp only [Prod.mk.injEq]
  constructor
  · apply List.map_congr_left
    intro qa hqa
    rw [scoreQuestion_eq_spec qa.question qa.attempts (hWf qa hqa)]
  · apply congrArg
    apply List.map_congr_left
    intro qa hqa
    rw [scoreQuestion_eq_spec qa.question qa.attempts (hWf qa hqa)]

/-- Witness for C1: the equivalence instantiated on a concrete two-question
attempt (one question with a hint used, one without). -/
theorem score_calculator_matches_claim_witness :
    calculate_total_score_achieved
        [⟨⟨10, [⟨true⟩, ⟨false⟩], none⟩, [⟨true, true, true, 0⟩, ⟨true, false, false, 0⟩]⟩,
         ⟨⟨4, [⟨true⟩, ⟨true⟩], none⟩, [⟨true, true, false, 0⟩]⟩]
      = specCalculateTotal
        [⟨⟨10, [⟨true⟩, ⟨false⟩], none⟩, [⟨true, true, true, 0⟩, ⟨true, false, false, 0⟩]⟩,
         ⟨⟨4, [⟨true⟩, ⟨true⟩], none⟩, [⟨true, true, false, 0⟩]⟩] :=
  score_calculator_matches_claim _ (by intro qa hqa; fin_cases hqa <;> simp)

lemma applyPenalty_sum (l : List UserAnswerAttempt) :
    ∀ rem : ℚ, 0 ≤ rem → (∀ ua ∈ l, 0 ≤ ua.score_achieved) →
      (((applyPenalty rem l).1).map (·.score_achieved)).sum
        = (l.map (·.score_achieved)).sum - min rem ((l.map (·.score_achieved)).sum) := by
  induction l with
  | nil => intro rem hrem _; simp [applyPenalty, min_eq_right hrem]
  | cons ua rest ih =>
    intro rem hrem hpos
    have hua : 0 ≤ ua.score_achieved := hpos ua (by simp)
    have hrest : ∀ x ∈ rest, 0 ≤ x.score_achieved := fun x hx => hpos x (by simp [hx])
    have hsum : 0 ≤ (rest.map (·.score_achieved)).sum :=
      List.sum_nonneg (by intro x hx; simp at hx; obtain ⟨a, ha, rfl⟩ := hx; exact hrest a ha)
    by_cases h : ua.score_achieved > 0 ∧ rem > 0
    · have hcond : (ua.score_achieved > 0 ∧ rem > 0) = True := eq_true h
      simp only [applyPenalty, hcond, if_true, List.map_cons, List.sum_cons]
      rcases le_total ua.score_achieved rem with hle | hle
      · have hd : min ua.score_achieved rem = ua.score_achieved := min_eq_left hle
        rw [hd, ih (rem - ua.score_achieved) (by linarith) hrest]
        rcases le_total (rem - ua.score_achieved) ((rest.map (·.score_achieved)).sum) with h2 | h2
        · rw [min_eq_left h2,
            min_eq_left (by linarith : rem ≤ ua.score_achieved + (rest.map (·.score_achieved)).sum)]
          ring
        · rw [min_eq_right h2,
            min_eq_right (by linarith : ua.score_achieved + (rest.map (·.score_achieved)).sum ≤ rem)]
          ring
      · have hd : min ua.score_achieved rem = rem := min_eq_right hle
        rw [hd, ih (rem - rem) (by linarith) hrest]
        rw [min_eq_left (by linarith : rem ≤ ua.score_achieved + (rest.map (·.score_achieved)).sum)]
        rw [sub_self, min_eq_left hsum]
        ring
    · have hcond : (ua.score_achieved > 0 ∧ rem > 0) = False := eq_false h
      simp only [applyPenalty, hcond, if_false, List.map_cons, List.sum_cons]
      rw [ih rem hrem hrest]
      rcases not_and_or.mp h with h1 | h1
      · have h0 : ua.score_achieved = 0 := le_antisymm (not_lt.mp h1) hua
        rw [h0]
        simp
      · have h0 : rem = 0 := le_antisymm (not_lt.mp h1) hrem
        rw [h0]
        simp [min_eq_left hsum, min_eq_left (by linarith : (0:ℚ) ≤ ua.score_achieved + (rest.map (·.score_achieved)).sum)]

lemma questionWeight_nonneg (q : Question) (hms : 0 ≤ q.max_score) :
    0 ≤ questionWeight q := by
  simp only [questionWeight]
  apply div_nonneg hms
  split
  · norm_num
  · positivity

lemma scoredAttempts_nonneg (q : Question) (uas : List UserAnswerAttempt)
    (hms : 0 ≤ q.max_score) :
    ∀ ua ∈ scoredAttempts q uas, 0 ≤ ua.score_achieved := by
  intro ua hua
  simp only [scoredAttempts, List.mem_map] at hua
  obtain ⟨a, _, rfl⟩ := hua
  simp only [scoreAnswerAttempt]
  split
  · exact questionWeight_nonneg q hms
  · exact le_refl 0

/-- C10: for every question processed by the Score Calculator (with answer
options present and nonnegative `max_score`), the sum of the `score_achieved`
values written to the question's answer attempts equals the question's
contribution to the attempt total, and when a hint was used the total amount
deducted from the individual scores equals `min 5 (un-penalized subtotal)`,
so the per-answer breakdown and the question subtotal never disagree. -/
theorem question_breakdown_consistent (q : Question) (uas : List UserAnswerAttempt)
    (hne : q.answers ≠ []) (hms : 0 ≤ q.max_score) :
    (((scoreQuestion q uas).1).map (·.score_achieved)).sum = (scoreQuestion q uas).2
    ∧ ((scoredAttempts q uas).any (·.hint_used) = true →
        ((scoredAttempts q uas).map (·.score_achieved)).sum
          - (((scoreQuestion q uas).1).map (·.score_achieved)).sum
        = min 5 (((scoredAttempts q uas).map (·.score_achieved)).sum)) := by
  have hlen : ¬ q.answers.length = 0 := by
    simpa [List.length_eq_zero] using hne
  have hpos := scoredAttempts_nonneg q uas hms
  have hsum : 0 ≤ ((scoredAttempts q uas).map (·.score_achieved)).sum := by
    apply List.sum_nonneg
    intro x hx
    simp only [List.mem_map] at hx
    obtain ⟨a, ha, rfl⟩ := hx
    exact hpos a ha
  unfold scoreQuestion
  by_cases hh : (scoredAttempts q uas).any (·.hint_used)
  · simp only [hlen, if_false, hh, if_true]
    have hap := applyPenalty_sum (scoredAttempts q uas) 5 (by norm_num) hpos
    constructor
    · rw [hap]
      rcases le_total (5:ℚ) ((scoredAttempts q uas).map (·.score_achieved)).sum with hc | hc
      · rw [min_eq_left hc, max_eq_right (by linarith : (0:ℚ) ≤ ((scoredAttempts q uas).map (·.score_achieved)).sum - 5)]
      · rw [min_eq_right hc, max_eq_left (by linarith : ((scoredAttempts q uas).map (·.score_achieved)).sum - 5 ≤ 0), sub_self]
    · intro _
      rw [hap]
      ring
  · simp only [hlen, if_false, hh, if_false, Bool.false_eq_true, false_implies, and_true]

/-- Witness for C10: the invariant instantiated on a one-question attempt with
a hint used (raw subtotal 10, deduction 5, written sum 5 = clamped subtotal). -/
theorem question_breakdown_consistent_witness :
    (((scoreQuestion ⟨10, [⟨true⟩], none⟩ [⟨true, true, true, 0⟩]).1.map (·.score_achieved)).sum
        = (scoreQuestion ⟨10, [⟨true⟩], none⟩ [⟨true, true, true, 0⟩]).2)
    ∧ ((scoredAttempts ⟨10, [⟨true⟩], none⟩ [⟨true, true, true, 0⟩]).any (·.hint_used) = true →
        ((scoredAttempts ⟨10, [⟨true⟩], none⟩ [⟨true, true, true, 0⟩]).map (·.score_achieved)).sum
          - ((scoreQuestion ⟨10, [⟨true⟩], none⟩ [⟨true, true, true, 0⟩]).1.map (·.score_achieved)).sum
        = min 5 (((scoredAttempts ⟨10, [⟨true⟩], none⟩ [⟨true, true, true, 0⟩]).map (·.score_achieved)).sum)) :=
  question_breakdown_consistent _ _ (by simp) (by norm_num)

/-- Maximum of a nonempty list of scores (the Django `Max` aggregate); the
sentinel for `[]` is never used by callers. -/
def listMax : List ℚ → ℚ
  | [] => 0
  | [s] => s
  | s :: rest => max s (listMax rest)

/-- Django `aggregate(max_score=Max('total_score_achieved'))['max_score'] or 0`
(tasks.py lines 65-71): `None` (no rows) falls through to `0` (and Python's
`or` maps a `0.0` maximum to `0`, which is the identity); the maximum of a
nonempty history is returned unchanged. -/
def maxScoreOr0 : List ℚ → ℚ
  | [] => 0
  | s :: rest => listMax (s :: rest)

/-- The points-ledger step of `calculate_score_and_issue_points` (tasks.py
lines 41-85): given the quest's type, the scores of the student's other
submitted attempts at the quest, the attempt's freshly computed score and the
student's current `total_points`, return the new `total_points`. -/
def issuePoints (questType : String) (priorScores : List ℚ) (newScore totalPoints : ℚ) : ℚ :=
  let highest_score_achieved := maxScoreOr0 priorScores
  if newScore > highest_score_achieved ∧ questType ≠ "Private" then
    totalPoints + (newScore - highest_score_achieved)
  else
    totalPoints

/-- A sequence of submitted attempts at one quest by one student: each new
score is processed by `issuePoints` with the previously accumulated scores as
the prior history. -/
def issuePointsSeq (questType : String) : List ℚ → List ℚ → ℚ → ℚ
  | [], _, totalPoints => totalPoints
  | s :: rest, prior, totalPoints =>
    issuePointsSeq questType rest (prior ++ [s]) (issuePoints questType prior s totalPoints)

/-- The best score of a history, 0 when empty. -/
def bestScore (l : List ℚ) : ℚ := l.foldr max 0

lemma bestScore_append (l : List ℚ) (s : ℚ) :
    bestScore (l ++ [s]) = max (bestScore l) s := by
  induction l with
  | nil => simp [bestScore, max_comm]
  | cons a t ih =>
    simp only [bestScore, List.cons_append, List.foldr_cons] at ih ⊢
    rw [ih]
    rw [max_assoc]

lemma listMax_eq_bestScore (a : ℚ) (t : List ℚ) (h : ∀ x ∈ a :: t, 0 ≤ x) :
    listMax (a :: t) = bestScore (a :: t) := by
  induction t generalizing a with
  | nil =>
    have ha : 0 ≤ a := h a (by simp)
    simp [listMax, bestScore, max_eq_left ha]
  | cons b t2 ih =>
    have hrec : listMax (a :: b :: t2) = max a (listMax (b :: t2)) := rfl
    have hsub : ∀ x ∈ b :: t2, 0 ≤ x := fun x hx => h x (by simp at hx ⊢; tauto)
    rw [hrec, ih b hsub]
    simp [bestScore]

lemma maxScoreOr0_eq_bestScore (l : List ℚ) (h : ∀ x ∈ l, 0 ≤ x) :
    maxScoreOr0 l = bestScore l := by
  cases l with
  | nil => rfl
  | cons a t => exact listMax_eq_bestScore a t h

lemma issuePointsSeq_invariant (questType : String) (hqt : questType ≠ "Private") :
    ∀ (scores prior : List ℚ) (t : ℚ), (∀ x ∈ prior, 0 ≤ x) → (∀ x ∈ scores, 0 ≤ x) →
      issuePointsSeq questType scores prior t
        = t + bestScore (prior ++ scores) - bestScore prior := by
  intro scores
  induction scores with
  | nil =>
    intro prior t _ _
    simp [issuePointsSeq]
  | cons s rest ih =>
    intro prior t hp hs
    have hs0 : 0 ≤ s := hs s (by simp)
    have hrest : ∀ x ∈ rest, 0 ≤ x := fun x hx => hs x (by simp [hx])
    have hprior2 : ∀ x ∈ prior ++ [s], 0 ≤ x := by
      intro x hx
      simp at hx
      rcases hx with hx | hx
      · exact hp x hx
      · subst hx; exact hs0
    simp only [issuePointsSeq]
    rw [ih (prior ++ [s]) _ hprior2 hrest]
    have happ : (prior ++ [s]) ++ rest = prior ++ s :: rest := by
      rw [List.append_assoc, List.singleton_append]
    rw [happ, bestScore_append]
    unfold issuePoints
    rw [maxScoreOr0_eq_bestScore prior hp]
    by_cases hgt : s > bestScore prior
    · rw [if_pos ⟨hgt, hqt⟩, max_eq_right (le_of_lt hgt)]
      ring
    · have hcond : ¬ (s > bestScore prior ∧ questType ≠ "Private") := fun hc => hgt hc.1
      rw [if_neg hcond, max_eq_left (not_lt.mp hgt)]

/-- C3: for a submitted attempt at a non-private quest the ledger adds exactly
`newScore - priorBest` when `newScore > priorBest` (priorBest being the
maximum over the student's other submitted attempts, 0 when none), leaves
`total_points` unchanged otherwise, skips quests of type "Private" entirely,
and consequently over any sequence of submitted attempts with nonnegative
scores at one non-private quest the total ledger gain equals the student's
best single score. -/
theorem points_ledger_marginal_credit :
    (∀ (qt : String) (prior : List ℚ) (s t : ℚ),
        qt ≠ "Private" → s > maxScoreOr0 prior →
          issuePoints qt prior s t = t + (s - maxScoreOr0 prior))
    ∧ (∀ (qt : String) (prior : List ℚ) (s t : ℚ),
        ¬ s > maxScoreOr0 prior → issuePoints qt prior s t = t)
    ∧ (∀ (prior : List ℚ) (s t : ℚ), issuePoints "Private" prior s t = t)
    ∧ (∀ (qt : String) (scores : List ℚ), qt ≠ "Private" → (∀ x ∈ scores, 0 ≤ x) →
          issuePointsSeq qt scores [] 0 = bestScore scores) := by
  refine ⟨?_, ?_, ?_, ?_⟩
  · intro qt prior s t hqt hgt
    simp [issuePoints, hgt, hqt]
  · intro qt prior s t hgt
    simp [issuePoints, hgt]
  · intro prior s t
    simp [issuePoints]
  · intro qt scores hqt hs
    rw [issuePointsSeq_invariant qt hqt scores [] 0 (by simp) hs]
    simp [bestScore]

/-- Witness for C3: a three-attempt sequence with scores 10, 7, 12 at a
non-private quest credits exactly 12 points in total — the best single score. -/
theorem points_ledger_marginal_credit_witness :
    issuePointsSeq "Kahoot!" [10, 7, 12] [] 0 = bestScore [10, 7, 12] :=
  points_ledger_marginal_credit.2.2.2 "Kahoot!" [10, 7, 12] (by simp)
    (by intro x hx; simp at hx; rcases hx with h | h | h <;> rw [h] <;> norm_num)

/-- Mirrors `UserQuestAttempt` (models.py) as read by the quest-expiry badge
tasks: the achieved score and the two optional timestamps (modelled in
milliseconds). -/
structure UserQuestAttempt where
  id : ℕ
  total_score_achieved : ℚ
  first_attempted_date : Option ℤ
  last_attempted_date : Option ℤ
deriving DecidableEq, Repr

/-- `UserQuestAttempt.time_taken` (models.py lines 321-330): 0 when either
timestamp is missing or the difference is negative, otherwise
`last_attempted_date - first_attempted_date` in milliseconds. -/
def time_taken (a : UserQuestAttempt) : ℤ :=
  match a.first_attempted_date, a.last_attempted_date with
  | some f, some l => if l - f < 0 then 0 else l - f
  | _, _ => 0

/-- The queryset of `award_speedster_badge` (tasks.py lines 192-196):
attempts with `total_score_achieved > 0`, excluding rows where both
timestamps are `None` (Django `.exclude(a=None, b=None)` removes only rows
matching both conditions). -/
def speedsterPool (attempts : List UserQuestAttempt) : List UserQuestAttempt :=
  (attempts.filter (fun a => a.total_score_achieved > 0)).filter
    (fun a => !(a.first_attempted_date.isNone && a.last_attempted_date.isNone))

/-- `filtered_attempts` (tasks.py lines 201-204): pool members with a
strictly positive elapsed time. -/
def timedAttempts (attempts : List UserQuestAttempt) : List UserQuestAttempt :=
  (speedsterPool attempts).filter (fun a => time_taken a > 0)

/-- Python `min(filtered_attempts, key=lambda x: x.time_taken)` (tasks.py
line 210): the first attempt attaining the minimum elapsed time. -/
def fastestAttempt : List UserQuestAttempt → Option UserQuestAttempt
  | [] => none
  | a :: rest =>
    some (rest.foldl (fun acc x => if time_taken x < time_taken acc then x else acc) a)

/-- Insertion into a list sorted in descending order. -/
def insertDesc (x : ℚ) : List ℚ → List ℚ
  | [] => [x]
  | y :: t => if x ≥ y then x :: y :: t else y :: insertDesc x t

/-- Sort a list of scores in descending order. -/
def sortDesc (l : List ℚ) : List ℚ := l.foldr insertDesc []

/-- The top three distinct scores of the pool (tasks.py lines 216-217):
`values_list('total_score_achieved').distinct().order_by('-total_score_achieved')[:3]`. -/
def topThreeScores (attempts : List UserQuestAttempt) : List ℚ :=
  (sortDesc ((attempts.map (·.total_score_achieved)).dedup)).take 3

/-- `award_speedster_badge` (tasks.py lines 177-234): skip private quests and
quests with zero max score; among attempts with positive score (and not both
timestamps missing), take those with positive elapsed time; award the badge
to the fastest of them iff its score is among the pool's top three distinct
scores, otherwise award nobody. -/
def award_speedster_badge (questType : String) (totalMaxScore : ℚ)
    (attempts : List UserQuestAttempt) : Option UserQuestAttempt :=
  if questType = "Private" then none
  else if totalMaxScore = 0 then none
  else if (speedsterPool attempts).isEmpty then none
  else
    match fastestAttempt (timedAttempts attempts) with
    | none => none
    | some fastest =>
      if fastest.total_score_achieved ∈ topThreeScores (speedsterPool attempts) then
        some fastest
      else none

example :
    award_speedster_badge "Kahoot!" 10
      [⟨1, 10, some 0, some 50⟩, ⟨2, 10, some 0, some 30⟩,
       ⟨3, 8, some 0, some 10⟩, ⟨4, 5, some 0, some 5⟩]
      = some ⟨4, 5, some 0, some 5⟩ := by decide

/-- Counterexample to C4's reading of the spec's tie-break example: with
scores [10,10,8,5] and elapsed times [50,30,10,5] ms there are only three
distinct scores, {10,8,5}, so the fastest attempt (5 ms, score 5) is itself a
top-3 scorer and receives the badge; the award does not go to the 10 ms
attempt described by the spec's example. -/
theorem speedster_spec_example_refuted :
    award_speedster_badge "Kahoot!" 10
        [⟨1, 10, some 0, some 50⟩, ⟨2, 10, some 0, some 30⟩,
         ⟨3, 8, some 0, some 10⟩, ⟨4, 5, some 0, some 5⟩]
      = some ⟨4, 5, some 0, some 5⟩
    ∧ award_speedster_badge "Kahoot!" 10
        [⟨1, 10, some 0, some 50⟩, ⟨2, 10, some 0, some 30⟩,
         ⟨3, 8, some 0, some 10⟩, ⟨4, 5, some 0, some 5⟩]
      ≠ some ⟨3, 8, some 0, some 10⟩ := by decide

lemma speedsterPool_empty_timed (attempts : List UserQuestAttempt)
    (h : (speedsterPool attempts).isEmpty = true) :
    timedAttempts attempts = [] := by
  unfold timedAttempts
  rw [List.isEmpty_iff.mp h]
  rfl

/-- C4 (amended): for a non-private quest with nonzero total max score, if the
attempts with positive score and positive elapsed time are nonempty then the
Speedster badge goes to the fastest of them exactly when its score is among
the top three distinct scores of the positive-score pool, and when the
fastest attempt's score is not among those top three no attempt is awarded.
(On the spec's example input the fastest attempt, 5 ms with score 5, is a
top-3 scorer and wins — see `speedster_spec_example_refuted`.) -/
theorem speedster_award_characterized (qt : String) (ms : ℚ)
    (attempts : List UserQuestAttempt) (f : UserQuestAttempt)
    (hqt : qt ≠ "Private") (hms : ms ≠ 0)
    (hf : fastestAttempt (timedAttempts attempts) = some f) :
    (f.total_score_achieved ∈ topThreeScores (speedsterPool attempts) →
        award_speedster_badge qt ms attempts = some f)
    ∧ (f.total_score_achieved ∉ topThreeScores (speedsterPool attempts) →
        award_speedster_badge qt ms attempts = none) := by
  have hpool : (speedsterPool attempts).isEmpty = false := by
    by_contra hc
    have h1 : (speedsterPool attempts).isEmpty = true := by
      cases h : (speedsterPool attempts).isEmpty
      · exact absurd h hc
      · rfl
    rw [speedsterPool_empty_timed attempts h1] at hf
    simp [fastestAttempt] at hf
  unfold award_speedster_badge
  rw [if_neg hqt, if_neg hms, hpool]
  simp only [Bool.false_eq_true, if_false, hf]
  constructor
  · intro hmem
    rw [if_pos hmem]
  · intro hmem
    rw [if_neg hmem]

/-- Witness for C4's amended theorem: with four distinct scores [10,9,8,5]
and times [50,30,10,5] ms the fastest attempt's score 5 is outside the top
three distinct scores {10,9,8}, so no attempt is awarded. -/
theorem speedster_award_characterized_witness :
    award_speedster_badge "Kahoot!" 10
        [⟨1, 10, some 0, some 50⟩, ⟨2, 9, some 0, some 30⟩,
         ⟨3, 8, some 0, some 10⟩, ⟨4, 5, some 0, some 5⟩]
      = none :=
  (speedster_award_characterized "Kahoot!" 10
      [⟨1, 10, some 0, some 50⟩, ⟨2, 9, some 0, some 30⟩,
       ⟨3, 8, some 0, some 10⟩, ⟨4, 5, some 0, some 5⟩]
      ⟨4, 5, some 0, some 5⟩
      (by decide) (by decide) (by decide)).2 (by decide)

/-- `award_expert_badge` (tasks.py lines 237-292): skip private quests, quests
with zero max score and quests not yet expired; over ALL attempts of the
quest take the highest `total_score_achieved` (`Max(...) or 0`); if it is not
positive award nobody, otherwise award every attempt achieving it. -/
def award_expert_badge (questType : String) (totalMaxScore : ℚ) (status : String)
    (attempts : List UserQuestAttempt) : List UserQuestAttempt :=
  if questType = "Private" then []
  else if totalMaxScore = 0 then []
  else if status ≠ "Expired" then []
  else if attempts.isEmpty then []
  else
    let highest_score := maxScoreOr0 (attempts.map (·.total_score_achieved))
    if highest_score ≤ 0 then []
    else attempts.filter (fun a => a.total_score_achieved = highest_score)

/-- Counterexample to C6: an expired, non-private quest with nonzero max
score whose only attempt scored 0.  That attempt's score equals the maximum
observed score over all of the quest's attempts, yet the code awards nobody
(`highest_score <= 0` short-circuit, tasks.py line 267). -/
theorem expert_zero_max_refutes_claim :
    (⟨1, 0, none, none⟩ : UserQuestAttempt).total_score_achieved
        = maxScoreOr0 (([⟨1, 0, none, none⟩] : List UserQuestAttempt).map (·.total_score_achieved))
    ∧ award_expert_badge "Kahoot!" 10 "Expired" [⟨1, 0, none, none⟩] = [] := by decide

/-- C6 (amended): for a non-private quest with nonzero total max score and
status "Expired", provided the maximum observed score is strictly positive,
exactly the attempts whose `total_score_achieved` equals that maximum are
awarded the Expert badge — ties all award, so multiple attempts can win; when
no attempt scored above 0 nobody is awarded. -/
theorem expert_ties_all_award (qt : String) (ms : ℚ) (status : String)
    (attempts : List UserQuestAttempt)
    (hqt : qt ≠ "Private") (hms : ms ≠ 0) (hstat : status = "Expired")
    (hmax : 0 < maxScoreOr0 (attempts.map (·.total_score_achieved))) :
    ∀ a : UserQuestAttempt,
      a ∈ award_expert_badge qt ms status attempts ↔
        a ∈ attempts
          ∧ a.total_score_achieved = maxScoreOr0 (attempts.map (·.total_score_achieved)) := by
  intro a
  have hne : attempts.isEmpty = false := by
    cases attempts with
    | nil => simp [maxScoreOr0] at hmax
    | cons x t => rfl
  subst hstat
  unfold award_expert_badge
  rw [if_neg hqt, if_neg hms, if_neg (by simp), hne]
  simp only [Bool.false_eq_true, if_false, if_neg (not_le.mpr hmax)]
  rw [List.mem_filter]
  simp

/-- Witness for C6's amended theorem: two tied attempts at score 10 are both
awarded; here membership of the second tied attempt is derived. -/
theorem expert_ties_all_award_witness :
    (⟨2, 10, none, none⟩ : UserQuestAttempt) ∈
      award_expert_badge "Kahoot!" 5 "Expired"
        [⟨1, 10, none, none⟩, ⟨2, 10, none, none⟩, ⟨3, 8, none, none⟩] :=
  (expert_ties_all_award "Kahoot!" 5 "Expired"
      [⟨1, 10, none, none⟩, ⟨2, 10, none, none⟩, ⟨3, 8, none, none⟩]
      (by decide) (by decide) rfl (by decide) ⟨2, 10, none, none⟩).mpr (by decide)

/-- A quest as seen by the course-completion check: its id and type. -/
structure QuestRef where
  id : ℕ
  type : String
deriving DecidableEq, Repr

/-- Mirrors `UserCourseGroupEnrollment` as read by
`check_course_completion_and_award_completionist_badge`: the quests of the
enrollment's course group, and the ids of the quests the student has a
submitted attempt for. -/
structure UserCourseGroupEnrollment where
  group_quests : List QuestRef
  submitted_quest_ids : List ℕ
deriving DecidableEq, Repr

/-- One enrollment iteration of
`check_course_completion_and_award_completionist_badge` (tasks.py lines
341-378): restrict to non-private quests; skip the enrollment when there are
none (`continue`); otherwise award iff the set of group quest ids equals the
set of those ids the student has submitted attempts for. -/
def completionistAwarded (e : UserCourseGroupEnrollment) : Bool :=
  let quests_in_group := e.group_quests.filter (fun q => q.type ≠ "Private")
  if quests_in_group.isEmpty then false
  else
    let quests_in_group_ids := (quests_in_group.map (·.id)).toFinset
    let user_attempts_in_group :=
      (e.submitted_quest_ids.filter (fun i => i ∈ quests_in_group.map (·.id))).toFinset
    quests_in_group_ids = user_attempts_in_group

/-- The award condition exactly as claim C5 words it: the set of non-private
quest ids in the enrollment's course group equals the set of group quest ids
the student has a submitted attempt for — with no guard for a group that has
no non-private quests. -/
def specCompletionistCondition (e : UserCourseGroupEnrollment) : Bool :=
  let qlist := e.group_quests.filter (fun q => q.type ≠ "Private")
  (qlist.map (·.id)).toFinset
    = (e.submitted_quest_ids.filter (fun i => i ∈ qlist.map (·.id))).toFinset

/-- Counterexample to C5: an enrollment whose course group contains only a
private quest (hence no non-private quests) and a student with no submitted
attempts.  The two sets of C5's "if and only if" are both empty, hence equal,
yet the code skips the enrollment and never awards the badge. -/
theorem completionist_empty_group_refutes_claim :
    specCompletionistCondition ⟨[⟨1, "Private"⟩], []⟩ = true
    ∧ completionistAwarded ⟨[⟨1, "Private"⟩], []⟩ = false := by decide

/-- C5 (amended): for every enrollment whose course group has at least one
non-private quest, the Completionist badge is awarded iff the set of
non-private group quest ids exactly equals the set of group quest ids with a
submitted attempt by the student; a group with no non-private quests never
awards. -/
theorem completionist_exact_match (e : UserCourseGroupEnrollment)
    (hne : e.group_quests.filter (fun q => q.type ≠ "Private") ≠ []) :
    completionistAwarded e = true ↔
      ((e.group_quests.filter (fun q => q.type ≠ "Private")).map (·.id)).toFinset
        = (e.submitted_quest_ids.filter
            (fun i => i ∈ (e.group_quests.filter (fun q => q.type ≠ "Private")).map (·.id))).toFinset := by
  unfold completionistAwarded
  rw [if_neg (by simpa [List.isEmpty_iff] using hne)]
  simp

/-- Witness for C5's amended theorem: 3 of 3 non-private quests submitted is
awarded. -/
theorem completionist_exact_match_witness :
    completionistAwarded ⟨[⟨1, "MCQ"⟩, ⟨2, "MCQ"⟩, ⟨3, "MCQ"⟩], [1, 2, 3]⟩ = true :=
  (completionist_exact_match ⟨[⟨1, "MCQ"⟩, ⟨2, "MCQ"⟩, ⟨3, "MCQ"⟩], [1, 2, 3]⟩
    (by decide)).mpr (by decide)

example : completionistAwarded ⟨[⟨1, "MCQ"⟩, ⟨2, "MCQ"⟩, ⟨3, "MCQ"⟩], [1, 2]⟩ = false := by decide

/-- The trigger in `Course.save` (models.py lines 107-129): the completion
and tutorial-attendance tasks are dispatched exactly when the course status
changes from "Active" to "Expired". -/
def courseExpiryDispatch (old_status new_status : String) : Bool :=
  old_status = "Active" && new_status = "Expired"

/-- Modelled from the spec: the Celery task
`award_tutorial_attendance_badges_for_course` is dispatched by `Course.save`
and exercised by tests/test_tasks.py, but its definition is not under src.
Per spec §4.3, for each enrolled student the fraction of tutorial-type quests
with a submitted attempt is computed. -/
def tutorialAttendanceFraction (totalTutorials submittedTutorials : ℕ) : ℚ :=
  (submittedTutorials : ℚ) / (totalTutorials : ℚ)

/-- Modelled from the spec: the Full tutorial-attendance badge is awarded
when the attendance fraction is at least 70%. -/
def awardsFullAttendance (totalTutorials submittedTutorials : ℕ) : Bool :=
  tutorialAttendanceFraction totalTutorials submittedTutorials ≥ 7/10

/-- Modelled from the spec: the Half tutorial-attendance badge is awarded
when the attendance fraction is at least 50%, independently of the Full
badge. -/
def awardsHalfAttendance (totalTutorials submittedTutorials : ℕ) : Bool :=
  tutorialAttendanceFraction totalTutorials submittedTutorials ≥ 1/2

/-- C7: the course-expiry transition (Active to Expired) dispatches the
tutorial-attendance task; the Full badge goes to fractions at least 70% and
the Half badge to fractions at least 50%; the two thresholds are independent
rather than mutually exclusive tiers — every Full awardee is also a Half
awardee — and 3 of 3 tutorials earns Full while 2 of 3 earns Half but not
Full (matching tests/test_tasks.py). -/
theorem tutorial_attendance_thresholds :
    (∀ old_status new_status : String,
        courseExpiryDispatch old_status new_status = true ↔
          (old_status = "Active" ∧ new_status = "Expired"))
    ∧ (∀ t s : ℕ, awardsFullAttendance t s = true ↔
        tutorialAttendanceFraction t s ≥ 7/10)
    ∧ (∀ t s : ℕ, awardsHalfAttendance t s = true ↔
        tutorialAttendanceFraction t s ≥ 1/2)
    ∧ (∀ t s : ℕ, awardsFullAttendance t s = true → awardsHalfAttendance t s = true)
    ∧ awardsFullAttendance 3 3 = true
    ∧ awardsHalfAttendance 3 2 = true
    ∧ awardsFullAttendance 3 2 = false := by
  refine ⟨?_, ?_, ?_, ?_, ?_, ?_, ?_⟩
  · intro o n
    simp [courseExpiryDispatch]
  · intro t s
    simp [awardsFullAttendance]
  · intro t s
    simp [awardsHalfAttendance]
  · intro t s h
    simp only [awardsFullAttendance, decide_eq_true_eq] at h
    simp only [awardsHalfAttendance, decide_eq_true_eq]
    linarith
  · simp only [awardsFullAttendance, tutorialAttendanceFraction, decide_eq_true_eq]
    norm_num
  · simp only [awardsHalfAttendance, tutorialAttendanceFraction, decide_eq_true_eq]
    norm_num
  · simp only [awardsFullAttendance, tutorialAttendanceFraction]
    norm_num

/-- Witness for C7: at full attendance both badges are awarded. -/
theorem tutorial_attendance_thresholds_witness :
    awardsHalfAttendance 3 3 = true :=
  tutorial_attendance_thresholds.2.2.2.1 3 3
    (by simp only [awardsFullAttendance, tutorialAttendanceFraction, decide_eq_true_eq]; norm_num)

/-- Mirrors what `update_cognitive_profile` (tasks.py lines 451-535) reads
from each answer attempt of the student's submitted attempts: the owning
question's nullable `topic` and this student's `is_correct` flag.  Note that
`getattr(question, 'topic', 'General')` returns the attribute's actual value
— `None` for a question with no topic — since the attribute always exists on
a model instance, so the key type is `Option String`. -/
structure AggAnswerAttempt where
  question_topic : Option String
  is_correct : Bool
deriving DecidableEq, Repr

/-- `topic_stats[topic]['total']`: the number of observations in a topic
bucket. -/
def topicTotal (l : List AggAnswerAttempt) (t : Option String) : ℕ :=
  (l.filter (fun a => a.question_topic == t)).length

/-- `topic_stats[topic]['correct']`: the number of correct observations in a
topic bucket. -/
def topicCorrect (l : List AggAnswerAttempt) (t : Option String) : ℕ :=
  (l.filter (fun a => a.question_topic == t && a.is_correct)).length

/-- `accuracy = (stats['correct'] / stats['total']) * 100` (tasks.py line
511), evaluated by the weak-topic loop only on buckets with observations. -/
def topicAccuracy (l : List AggAnswerAttempt) (t : Option String) : ℚ :=
  ((topicCorrect l t : ℚ) / (topicTotal l t : ℚ)) * 100

/-- The keys of `topic_stats`: every topic value observed at least once. -/
def observedTopics (l : List AggAnswerAttempt) : List (Option String) :=
  (l.map (·.question_topic)).dedup

/-- The weak-topics map written by `update_cognitive_profile` (tasks.py lines
507-514): the buckets with at least one observation and accuracy `< 60`,
each mapped to its accuracy; the map fully replaces the previous one. -/
def weak_topics (l : List AggAnswerAttempt) : List (Option String × ℚ) :=
  (observedTopics l).filterMap (fun t =>
    if 0 < topicTotal l t ∧ topicAccuracy l t < 60 then
      some (t, topicAccuracy l t)
    else none)

/-- The bucketing exactly as claim C8 words it: an answer attempt whose
question has no topic is bucketed under the topic "General". -/
def specTopicKey (a : AggAnswerAttempt) : String :=
  a.question_topic.getD "General"

/-- Weak-topics map per claim C8's wording, with the "General" default key. -/
def specWeakTopics (l : List AggAnswerAttempt) : List (String × ℚ) :=
  ((l.map specTopicKey).dedup).filterMap (fun t =>
    let total := (l.filter (fun a => specTopicKey a == t)).length
    let correct := (l.filter (fun a => specTopicKey a == t && a.is_correct)).length
    let accuracy := ((correct : ℚ) / (total : ℚ)) * 100
    if 0 < total ∧ accuracy < 60 then some (t, accuracy) else none)

/-- Counterexample to C8: a single incorrect answer attempt on a question
with no topic.  The claim says it is bucketed under "General"; the code
buckets it under the `None` key, so the weak-topics map contains the null key
and no "General" key. -/
theorem weak_topics_general_bucket_refuted :
    weak_topics [⟨none, false⟩] = [(none, 0)]
    ∧ specWeakTopics [⟨none, false⟩] = [("General", 0)]
    ∧ ∀ p ∈ weak_topics [⟨none, false⟩], p.1 ≠ some "General" := by
  refine ⟨?_, ?_, ?_⟩
  · simp [weak_topics, observedTopics, topicTotal, topicCorrect, topicAccuracy]
  · simp [specWeakTopics, specTopicKey]
  · intro p hp
    simp [weak_topics, observedTopics, topicTotal, topicCorrect, topicAccuracy] at hp
    subst hp
    simp

lemma topicTotal_pos_iff_observed (l : List AggAnswerAttempt) (t : Option String) :
    0 < topicTotal l t ↔ t ∈ observedTopics l := by
  unfold topicTotal observedTopics
  rw [List.mem_dedup, List.mem_map, List.length_pos, Ne, List.filter_eq_nil]
  push_neg
  constructor
  · rintro ⟨a, ha, hp⟩
    exact ⟨a, ha, by simpa using hp⟩
  · rintro ⟨a, ha, hp⟩
    exact ⟨a, ha, by simpa using hp⟩

/-- C8 (amended): the weak-topics map written by the aggregator contains
exactly the pairs `(t, accuracy)` for topic buckets `t` with at least one
observation and accuracy strictly below 60% (so 2/5 correct = 40% appears and
3/5 correct = 60% does not), the map being recomputed from scratch — but the
bucket key for a question with no topic is the null value, not "General"
(see `weak_topics_general_bucket_refuted`). -/
theorem weak_topics_characterized :
    (∀ (l : List AggAnswerAttempt) (t : Option String) (acc : ℚ),
        (t, acc) ∈ weak_topics l ↔
          0 < topicTotal l t ∧ topicAccuracy l t < 60 ∧ acc = topicAccuracy l t)
    ∧ (some "T", 40) ∈ weak_topics
        [⟨some "T", true⟩, ⟨some "T", true⟩, ⟨some "T", false⟩,
         ⟨some "T", false⟩, ⟨some "T", false⟩]
    ∧ ∀ acc : ℚ, (some "U", acc) ∉ weak_topics
        [⟨some "U", true⟩, ⟨some "U", true⟩, ⟨some "U", true⟩,
         ⟨some "U", false⟩, ⟨some "U", false⟩] := by
  have hchar : ∀ (l : List AggAnswerAttempt) (t : Option String) (acc : ℚ),
      (t, acc) ∈ weak_topics l ↔
        0 < topicTotal l t ∧ topicAccuracy l t < 60 ∧ acc = topicAccuracy l t := by
    intro l t acc
    unfold weak_topics
    rw [List.mem_filterMap]
    constructor
    · rintro ⟨t', ht', hf⟩
      by_cases hc : 0 < topicTotal l t' ∧ topicAccuracy l t' < 60
      · rw [if_pos hc] at hf
        obtain ⟨h1, h2⟩ := Prod.mk.injEq .. ▸ Option.some.injEq .. ▸ hf
        subst h1
        exact ⟨hc.1, hc.2, h2.symm⟩
      · rw [if_neg hc] at hf
        exact absurd hf (by simp)
    · rintro ⟨h1, h2, h3⟩
      refine ⟨t, (topicTotal_pos_iff_observed l t).mp h1, ?_⟩
      rw [if_pos ⟨h1, h2⟩, h3]
  refine ⟨hchar, ?_, ?_⟩
  · apply (hchar _ _ _).mpr
    refine ⟨by decide, ?_, ?_⟩
    · norm_num [topicAccuracy, topicCorrect, topicTotal]
    · norm_num [topicAccuracy, topicCorrect, topicTotal]
  · intro acc hmem
    have h := ((hchar _ _ _).mp hmem).2.1
    norm_num [topicAccuracy, topicCorrect, topicTotal] at h

/-- Mirrors the content fields of `StudentFeedback` (models.py lines
492-510), each holding the corresponding field of the service's JSON response
verbatim (opaque JSON modelled as strings). -/
structure StudentFeedback where
  quest_summary : String
  subtopic_feedback : String
  study_tips : String
  strengths : String
  weaknesses : String
  recommendations : String
  question_feedback : String
deriving DecidableEq, Repr

/-- Outcome of the `requests.post` call in `generate_personalised_feedback`:
either an HTTP response with a status code and body, or a raised transport
error (timeout, connection failure). -/
inductive HttpOutcome where
  | response (status : ℕ) (body : StudentFeedback)
  | transportFailure
deriving DecidableEq, Repr

/-- `StudentFeedback.objects.update_or_create(user_quest_attempt=...,
defaults={...})` (tasks.py lines 431-442): the store of feedback records
keyed by attempt id (a OneToOneField) gets the record for `id` fully
replaced, or appended when absent. -/
def update_or_create (store : List (ℕ × StudentFeedback)) (id : ℕ)
    (body : StudentFeedback) : List (ℕ × StudentFeedback) :=
  if store.any (·.1 == id) then
    store.map (fun p => if p.1 == id then (id, body) else p)
  else store ++ [(id, body)]

/-- `generate_personalised_feedback` (tasks.py lines 385-449): a missing
attempt raises and is swallowed (store untouched); a 200 response upserts the
StudentFeedback record for the attempt, replacing all content fields; any
other status, or a raised transport error, leaves the store untouched
(logged only, no retry). -/
def generate_personalised_feedback (store : List (ℕ × StudentFeedback))
    (attemptExists : Bool) (attemptId : ℕ) (outcome : HttpOutcome) :
    List (ℕ × StudentFeedback) :=
  if ¬ attemptExists then store
  else
    match outcome with
    | .response status body =>
      if status = 200 then update_or_create store attemptId body else store
    | .transportFailure => store

/-- The stored feedback record for an attempt id, if any. -/
def lookupFeedback (store : List (ℕ × StudentFeedback)) (id : ℕ) :
    Option StudentFeedback :=
  (store.find? (·.1 == id)).map (·.2)

lemma lookupFeedback_update_self (store : List (ℕ × StudentFeedback)) (id : ℕ)
    (body : StudentFeedback) :
    lookupFeedback (update_or_create store id body) id = some body := by
  unfold update_or_create lookupFeedback
  by_cases h : store.any (·.1 == id)
  · rw [if_pos h]
    induction store with
    | nil => simp at h
    | cons p rest ih =>
      by_cases hp : (p.1 == id) = true
      · simp [List.find?, hp]
      · have hp2 : (p.1 == id) = false := by simpa using hp
        have hrest : rest.any (·.1 == id) = true := by
          simp only [List.any_cons, Bool.or_eq_true] at h
          rcases h with h1 | h1
          · exact absurd h1 hp
          · exact h1
        simp only [List.map_cons, hp2, Bool.false_eq_true, if_false, List.find?, hp2]
        exact ih hrest
  · rw [if_neg h]
    induction store with
    | nil => simp [List.find?]
    | cons p rest ih =>
      have hp : (p.1 == id) = false := by
        by_contra hc
        have : (p.1 == id) = true := by
          cases hb : (p.1 == id)
          · exact absurd hb hc
          · rfl
        exact h (by simp [List.any_cons, this])
      have hrest : ¬ rest.any (·.1 == id) = true := by
        intro hc
        exact h (by simp [List.any_cons, hc])
      simp only [List.cons_append, List.find?, hp]
      exact ih hrest

lemma lookupFeedback_update_other (store : List (ℕ × StudentFeedback))
    (id k : ℕ) (body : StudentFeedback) (hk : k ≠ id) :
    lookupFeedback (update_or_create store id body) k = lookupFeedback store k := by
  have hidk : (id == k) = false := by simpa using Ne.symm hk
  unfold update_or_create lookupFeedback
  by_cases h : store.any (·.1 == id)
  · rw [if_pos h]
    clear h
    induction store with
    | nil => rfl
    | cons p rest ih =>
      by_cases hp : (p.1 == id) = true
      · have hpk : (p.1 == k) = false := by
          have he : p.1 = id := by simpa using hp
          rw [he]
          exact hidk
        simp only [List.map_cons, hp, if_true, List.find?, hidk, hpk]
        exact ih
      · have hp2 : (p.1 == id) = false := by simpa using hp
        simp only [List.map_cons, hp2, Bool.false_eq_true, if_false, List.find?]
        cases hpk : (p.1 == k)
        · exact ih
        · rfl
  · rw [if_neg h]
    clear h
    induction store with
    | nil =>
      simp [List.find?, hidk]
    | cons p rest ih =>
      simp only [List.cons_append, List.find?]
      cases hpk : (p.1 == k)
      · exact ih
      · rfl

/-- C9: the Feedback Payload Builder persists a StudentFeedback record iff
the service responds 200: on success the record keyed by the attempt id is
created or fully replaced with the response body and every other key is
untouched; on any non-200 status, transport failure, or missing attempt the
store is left exactly as it was (failure swallowed, no retry). -/
theorem feedback_persisted_iff_success (store : List (ℕ × StudentFeedback))
    (attemptId : ℕ) (body : StudentFeedback) :
    (generate_personalised_feedback store true attemptId (.response 200 body)
        = update_or_create store attemptId body)
    ∧ (lookupFeedback
        (generate_personalised_feedback store true attemptId (.response 200 body))
        attemptId = some body)
    ∧ (∀ k : ℕ, k ≠ attemptId →
        lookupFeedback
          (generate_personalised_feedback store true attemptId (.response 200 body)) k
          = lookupFeedback store k)
    ∧ (∀ (status : ℕ) (body2 : StudentFeedback), status ≠ 200 →
        generate_personalised_feedback store true attemptId (.response status body2)
          = store)
    ∧ (generate_personalised_feedback store true attemptId .transportFailure = store)
    ∧ (∀ outcome : HttpOutcome,
        generate_personalised_feedback store false attemptId outcome = store) := by
  refine ⟨?_, ?_, ?_, ?_, ?_, ?_⟩
  · simp [generate_personalised_feedback]
  · simp only [generate_personalised_feedback, not_true, if_false, if_pos rfl]
    exact lookupFeedback_update_self store attemptId body
  · intro k hk
    simp only [generate_personalised_feedback, not_true, if_false, if_pos rfl]
    exact lookupFeedback_update_other store attemptId k body hk
  · intro status body2 hst
    simp [generate_personalised_feedback, hst]
  · simp [generate_personalised_feedback]
  · intro outcome
    simp [generate_personalised_feedback]

/-- Witness for C9: a non-200 response against an empty store writes
nothing. -/
theorem feedback_persisted_iff_success_witness :
    generate_personalised_feedback [] true 7
        (.response 500 ⟨"", "", "", "", "", "", ""⟩) = [] :=
  (feedback_persisted_iff_success [] 7 ⟨"", "", "", "", "", "", ""⟩).2.2.2.1
    500 ⟨"", "", "", "", "", "", ""⟩ (by decide)
